import Mathlib

set_option autoImplicit false

/-!
Verification of the core logic of `rq` (`src/main.cpp`): the command-line
argument parser (`ProgramOptions::ProgramOptions`) and the expression
pipeline driven by `main`.  Command-line tokens (`std::string_view`) are
modelled as lists of characters; the external mruby evaluator is modelled
as an oracle deciding success of each submitted statement, and the
observable behaviour of `main` is modelled as a trace of events
(stdout writes, stderr writes, evaluator calls).
-/

/-- A command-line token (a `std::string_view` over `argv`), as its sequence
of characters. -/
abbrev Arg := List Char

/-- The `std::runtime_error` values thrown by `ProgramOptions::ProgramOptions`:
`noArgs` for the `argc < 1` check (message `"Really?"`), `invalidOption c` for
an unrecognized option character (message `"invalid option -" + c`). -/
inductive ParseError where
  | noArgs : ParseError
  | invalidOption : Char → ParseError
  deriving DecidableEq, Repr

/-- The `what()` message of each `ParseError`, exactly as built in the C++. -/
def ParseError.message : ParseError → String
  | .noArgs => "Really?"
  | .invalidOption c => String.push "invalid option -" c

/-- Result of command-line parsing (`struct ProgramOptions`). -/
structure ProgramOptions where
  help : Bool
  version : Bool
  expressions : List Arg
  deriving DecidableEq, Repr

/-- The inner character loop of the short-option branch
(`main.cpp` lines 68–88): starting from the character after the leading
`-`, `h` sets `help`, `v` sets `version`, and any other character throws
`invalid option -<c>` (modelled as `Except.error c`). -/
def scanShortOptions : List Char → Bool → Bool → Except Char (Bool × Bool)
  | [], help, version => .ok (help, version)
  | c :: cs, help, version =>
    if c = 'h' then scanShortOptions cs true version
    else if c = 'v' then scanShortOptions cs help true
    else .error c

/-- The token scanning loop of `ProgramOptions::ProgramOptions`
(`main.cpp` lines 37–95), as a left-to-right recursion over the argument
list.  A token that the loop erases (`args.erase(it)`) is dropped; a token
the loop merely advances past (`++it`) is kept and ends up in the returned
expression list, in order, mirroring `expressions = args` after the loop. -/
def scanArgs : List Arg → Bool → Bool → Except ParseError (Bool × Bool × List Arg)
  | [], help, version => .ok (help, version, [])
  | arg :: rest, help, version =>
    if arg.length = 0 then
      -- skip empty arguments: `++it`, the token stays in the list
      (scanArgs rest help version).map fun r => (r.1, r.2.1, arg :: r.2.2)
    else if arg = ['-', '-'] then
      -- `--`: erase it and stop scanning; every other arg is an expression
      .ok (help, version, rest)
    else if arg = ['-', '-', 'h', 'e', 'l', 'p'] then
      scanArgs rest true version
    else if arg = ['-', '-', 'v', 'e', 'r', 's', 'i', 'o', 'n'] then
      scanArgs rest help true
    else if 1 < arg.length ∧ arg.head? = some '-' then
      match scanShortOptions arg.tail help version with
      | .ok (h, v) => scanArgs rest h v
      | .error c => .error (.invalidOption c)
    else
      -- not an option: `++it`, the token stays in the list
      (scanArgs rest help version).map fun r => (r.1, r.2.1, arg :: r.2.2)

/-- Parsing of the argument list `argv[1..argc)` (the body of
`ProgramOptions::ProgramOptions` after the `argc` check). -/
def parseArgs (args : List Arg) : Except ParseError ProgramOptions :=
  match scanArgs args false false with
  | .ok (h, v, es) => .ok ⟨h, v, es⟩
  | .error e => .error e

/-- `ProgramOptions::ProgramOptions(argc, argv)`: throws `"Really?"` when
`argc < 1`, otherwise scans `args(argv + 1, argv + argc)`. -/
def ProgramOptions.ofArgv (argc : Nat) (argv : List Arg) : Except ParseError ProgramOptions :=
  if argc < 1 then .error .noArgs
  else parseArgs ((argv.take argc).drop 1)

example : parseArgs [] = .ok ⟨false, false, []⟩ := rfl
example : parseArgs [['-', 'h']] = .ok ⟨true, false, []⟩ := rfl
example : parseArgs [['-', 'v', 'h']] = .ok ⟨true, true, []⟩ := rfl
example : parseArgs [['-', 'x']] = .error (.invalidOption 'x') := rfl
example : parseArgs [['-']] = .ok ⟨false, false, [['-']]⟩ := rfl

/-- Observable actions of `main`: lines written to `std::cout`, lines
written to `std::cerr`, statements submitted to `rb.eval`, and calls to
`rb.print_error()` (which writes the evaluator diagnostic to stderr). -/
inductive Event where
  | out : List Char → Event
  | err : List Char → Event
  | eval : List Char → Event
  | printError : Event
  deriving DecidableEq, Repr

/-- The observable outcome of a run of `main`: the ordered event trace and
the process exit code (`EXIT_SUCCESS = 0`, `EXIT_FAILURE = 1`). -/
structure MainResult where
  events : List Event
  exitCode : Nat
  deriving DecidableEq, Repr

/-- The mruby evaluator, abstracted as an oracle: given the history of
statements already evaluated (all of which succeeded) and the statement
now submitted, it reports whether `rb.eval` returns true. -/
abbrev Evaluator := List (List Char) → List Char → Bool

/-- Modelled from the spec: `ExpressionWrapper::wrap`, declared in
`expressionwrapper.h`, which is not under `src/`.  Spec §4.3: a fixed
textual transformation, applied identically to every expression
independently of its content, reassigning the shared binding `item` to the
result of evaluating the user's fragment in a context where the current
document value is visible under the same binding name. -/
def ExpressionWrapper.wrap (expression : List Char) : List Char :=
  "item = (".toList ++ expression ++ ")".toList

/-- The statement initializing the shared document from stdin
(`main.cpp` line 137). -/
def initStmt : List Char := "item = JSON.parse(STDIN.read)".toList

/-- The statement serializing the shared document to stdout with 2-space
indentation (`main.cpp` line 160). -/
def serializeStmt : List Char :=
  "puts JSON.generate(item, pretty_print: true, indent_width: 2)".toList

/-- The text printed by `print_usage` (one stream insertion of a raw
string literal holding three lines). -/
def usageText : List Char :=
  ("Usage: rq [options] [--] [EXPRESSION...]\n" ++
   "  -v              print the version number\n" ++
   "  -h              show this message").toList

/-- Build-time version constants (`PROJECT_VERSION` from `config.h`,
`MRUBY_VERSION` from the mruby headers); neither file is under `src/`, so
they are kept abstract. -/
structure Config where
  projectVersion : List Char
  mrubyVersion : List Char

/-- The line printed by `print_version`. -/
def versionLine (cfg : Config) : List Char :=
  "rq ".toList ++ cfg.projectVersion ++ " (mruby ".toList ++ cfg.mrubyVersion ++ ")".toList

/-- The `running N expressions` progress line (`main.cpp` line 145). -/
def runningLine (n : Nat) : List Char :=
  "running ".toList ++ (Nat.repr n).toList ++ " expressions".toList

/-- The expression loop of `main` (`main.cpp` lines 146–157): for each
expression in order, print `----> <wrapped>` to stdout, submit the wrapped
expression to the evaluator; on failure print the diagnostic naming the
expression text to stderr, call `rb.print_error()`, and stop.  Returns the
events of the loop and, on success, the extended statement history. -/
def runExprLoop (E : Evaluator) :
    List (List Char) → List Arg → List Event × Option (List (List Char))
  | hist, [] => ([], some hist)
  | hist, expr :: rest =>
    let w := ExpressionWrapper.wrap expr
    if E hist w then
      let next := runExprLoop E (hist ++ [w]) rest
      (Event.out ("----> ".toList ++ w) :: Event.eval w :: next.1, next.2)
    else
      ([Event.out ("----> ".toList ++ w), Event.eval w,
        Event.err ("rq: expression ".toList ++ expr ++ " failed to run:".toList),
        Event.printError], none)

/-- `main` (`main.cpp` lines 117–176), as a trace of observable events:
argument parsing (with the catch block printing the message, a blank line
and the usage text to stderr), the help/version early exits, document
initialization from stdin, the expression loop, and final serialization. -/
def runMain (E : Evaluator) (cfg : Config) (argc : Nat) (argv : List Arg) : MainResult :=
  match ProgramOptions.ofArgv argc argv with
  | .error e =>
    ⟨[Event.err ("rq: ".toList ++ (ParseError.message e).toList), Event.err [],
      Event.err usageText], 1⟩
  | .ok opts =>
    if opts.help then ⟨[Event.out usageText], 0⟩
    else if opts.version then ⟨[Event.out (versionLine cfg)], 0⟩
    else if E [] initStmt then
      let loop := runExprLoop E [initStmt] opts.expressions
      let preamble := [Event.out "reading from stdin".toList, Event.eval initStmt,
                       Event.out (runningLine opts.expressions.length)]
      match loop.2 with
      | some hist =>
        if E hist serializeStmt then
          ⟨preamble ++ loop.1 ++ [Event.out "printing item".toList, Event.eval serializeStmt], 0⟩
        else
          ⟨preamble ++ loop.1 ++
           [Event.out "printing item".toList, Event.eval serializeStmt,
            Event.err "rq: printing item failed".toList, Event.printError], 1⟩
      | none => ⟨preamble ++ loop.1, 1⟩
    else
      ⟨[Event.out "reading from stdin".toList, Event.eval initStmt,
        Event.err "rq: read from stdin failed:".toList, Event.printError], 1⟩

/-- The statements a trace submits to the evaluator, in order. -/
def evalStmts (events : List Event) : List (List Char) :=
  events.filterMap fun e =>
    match e with
    | Event.eval s => some s
    | _ => none

/-- The lines a trace writes to standard output, in order. -/
def stdoutLines (events : List Event) : List (List Char) :=
  events.filterMap fun e =>
    match e with
    | Event.out s => some s
    | _ => none

/-- The stderr-related events of a trace (error lines and evaluator
diagnostics), in order. -/
def stderrEvents (events : List Event) : List Event :=
  events.filter fun e =>
    match e with
    | Event.err _ => true
    | Event.printError => true
    | _ => false

/-- The tokens the scanning loop erases (`args.erase(it)`), in scan order:
the `--help` / `--version` tokens, short-option bundles, and the `--`
terminator (after which scanning stops).  Mirrors the branch structure of
`scanArgs`. -/
def consumedTokens : List Arg → List Arg
  | [] => []
  | arg :: rest =>
    if arg.length = 0 then consumedTokens rest
    else if arg = ['-', '-'] then [arg]
    else if arg = ['-', '-', 'h', 'e', 'l', 'p'] then arg :: consumedTokens rest
    else if arg = ['-', '-', 'v', 'e', 'r', 's', 'i', 'o', 'n'] then arg :: consumedTokens rest
    else if 1 < arg.length ∧ arg.head? = some '-' then arg :: consumedTokens rest
    else consumedTokens rest

/-- The tokens that assign `help = true` during the scan: `--help`, and any
short-option bundle containing `h`, considered only up to the `--`
terminator. -/
def helpSetters : List Arg → List Arg
  | [] => []
  | arg :: rest =>
    if arg.length = 0 then helpSetters rest
    else if arg = ['-', '-'] then []
    else if arg = ['-', '-', 'h', 'e', 'l', 'p'] then arg :: helpSetters rest
    else if arg = ['-', '-', 'v', 'e', 'r', 's', 'i', 'o', 'n'] then helpSetters rest
    else if 1 < arg.length ∧ arg.head? = some '-' then
      if arg.tail.contains 'h' then arg :: helpSetters rest else helpSetters rest
    else helpSetters rest

/-- The tokens that assign `version = true` during the scan: `--version`,
and any short-option bundle containing `v`, considered only up to the `--`
terminator. -/
def versionSetters : List Arg → List Arg
  | [] => []
  | arg :: rest =>
    if arg.length = 0 then versionSetters rest
    else if arg = ['-', '-'] then []
    else if arg = ['-', '-', 'h', 'e', 'l', 'p'] then versionSetters rest
    else if arg = ['-', '-', 'v', 'e', 'r', 's', 'i', 'o', 'n'] then arg :: versionSetters rest
    else if 1 < arg.length ∧ arg.head? = some '-' then
      if arg.tail.contains 'v' then arg :: versionSetters rest else versionSetters rest
    else versionSetters rest

/-- An evaluator that accepts every submitted statement. -/
def acceptAll : Evaluator := fun _ _ => true

/-- An evaluator that rejects exactly the wrapped form of the expression
`b` and accepts everything else. -/
def failOnB : Evaluator := fun _ stmt => !(stmt == ExpressionWrapper.wrap ['b'])

/-- A placeholder build configuration for concrete runs. -/
def emptyConfig : Config := ⟨[], []⟩

/-- Characterization of the short-option character loop: the first
character that is neither `h` nor `v` is reported as invalid, and when
every character is `h` or `v` the loop succeeds, or-ing into the flags the
presence of `h` (resp. `v`). -/
theorem scanShortOptions_spec (cs : List Char) : ∀ (help version : Bool),
    (∀ c, cs.find? (fun c => !(c == 'h' || c == 'v')) = some c →
        scanShortOptions cs help version = .error c) ∧
    (cs.find? (fun c => !(c == 'h' || c == 'v')) = none →
        scanShortOptions cs help version =
          .ok (help || cs.contains 'h', version || cs.contains 'v')) := by
  induction cs with
  | nil =>
    intro help version
    refine ⟨fun c hc => by simp [List.find?] at hc, fun _ => ?_⟩
    simp [scanShortOptions]
  | cons c cs ih =>
    intro help version
    by_cases hch : c = 'h'
    · subst hch
      constructor
      · intro c' hc'
        rw [List.find?_cons_of_neg _ (by simp)] at hc'
        simpa [scanShortOptions] using (ih true version).1 c' hc'
      · intro hnone
        rw [List.find?_cons_of_neg _ (by simp)] at hnone
        simp only [scanShortOptions, if_pos rfl]
        rw [(ih true version).2 hnone]
        simp
    · by_cases hcv : c = 'v'
      · subst hcv
        constructor
        · intro c' hc'
          rw [List.find?_cons_of_neg _ (by simp)] at hc'
          simpa [scanShortOptions] using (ih help true).1 c' hc'
        · intro hnone
          rw [List.find?_cons_of_neg _ (by simp)] at hnone
          simp only [scanShortOptions, if_true]
          rw [(ih help true).2 hnone]
          simp
      · constructor
        · intro c' hc'
          rw [List.find?_cons_of_pos _ (by simp [hch, hcv])] at hc'
          cases hc'
          simp [scanShortOptions, hch, hcv]
        · intro hnone
          rw [List.find?_cons_of_pos _ (by simp [hch, hcv])] at hnone
          cases hnone

/-- Claim C4: a token of length > 1 starting with `-` that is not exactly
`--`, `--help` or `--version` is scanned character by character after the
first `-`: the first character that is neither `h` nor `v` raises
`invalid option -<c>` naming that character, and otherwise `h` sets help
and `v` sets version; an unknown long option such as `--foo` therefore
fails on the character immediately following the first `-`. -/
theorem c4_short_option_bundle (arg : Arg) (rest : List Arg) (help version : Bool)
    (hlen : 1 < arg.length) (hhead : arg.head? = some '-')
    (hdd : arg ≠ ['-', '-']) (hhelp : arg ≠ ['-', '-', 'h', 'e', 'l', 'p'])
    (hver : arg ≠ ['-', '-', 'v', 'e', 'r', 's', 'i', 'o', 'n']) :
    (∀ c, arg.tail.find? (fun c => !(c == 'h' || c == 'v')) = some c →
        scanArgs (arg :: rest) help version = .error (.invalidOption c)) ∧
    (arg.tail.find? (fun c => !(c == 'h' || c == 'v')) = none →
        scanArgs (arg :: rest) help version =
          scanArgs rest (help || arg.tail.contains 'h') (version || arg.tail.contains 'v')) := by
  have h0 : ¬arg.length = 0 := by omega
  have hbranch : scanArgs (arg :: rest) help version =
      match scanShortOptions arg.tail help version with
      | .ok (h, v) => scanArgs rest h v
      | .error c => .error (.invalidOption c) := by
    simp only [scanArgs]
    rw [if_neg h0, if_neg hdd, if_neg hhelp, if_neg hver, if_pos ⟨hlen, hhead⟩]
  constructor
  · intro c hc
    rw [hbranch, (scanShortOptions_spec arg.tail help version).1 c hc]
  · intro hnone
    rw [hbranch, (scanShortOptions_spec arg.tail help version).2 hnone]

/-- Witness for C4 at the unknown long option `--foo`: the hypotheses hold
and the scan fails naming the character immediately following the first
`-`, namely the second `-`. -/
theorem c4_short_option_bundle_witness :
    1 < (['-', '-', 'f', 'o', 'o'] : Arg).length ∧
    (['-', '-', 'f', 'o', 'o'] : Arg).head? = some '-' ∧
    (['-', '-', 'f', 'o', 'o'] : Arg).tail.find? (fun c => !(c == 'h' || c == 'v')) = some '-' ∧
    scanArgs [['-', '-', 'f', 'o', 'o']] false false = .error (.invalidOption '-') := by
  refine ⟨by decide, by decide, by decide, ?_⟩
  exact (c4_short_option_bundle ['-', '-', 'f', 'o', 'o'] [] false false (by decide) (by decide)
    (by decide) (by decide) (by decide)).1 '-' (by decide)

/-- Claim C6: on a `--` token the parser discards the token itself, stops
scanning, leaves the flags untouched, and every remaining token — even
option-looking ones — is placed verbatim into the expressions; in
particular `parse(["--", "-h", "foo"])` yields `expressions = ["-h",
"foo"]` and `help = false`. -/
theorem c6_double_dash_ends_options :
    (∀ (rest : List Arg) (help version : Bool),
        scanArgs (['-', '-'] :: rest) help version = .ok (help, version, rest)) ∧
    parseArgs [['-', '-'], ['-', 'h'], ['f', 'o', 'o']] =
      .ok ⟨false, false, [['-', 'h'], ['f', 'o', 'o']]⟩ :=
  ⟨fun _ _ _ => rfl, rfl⟩

/-- Claim C9: with `argc < 1` the `ProgramOptions` constructor throws the
runtime error `"Really?"` before scanning anything (the outcome does not
depend on `argv`); `main` catches it, prints the message and the usage
text to standard error, and exits non-zero. -/
theorem c9_no_arguments (E : Evaluator) (cfg : Config) (argc : Nat) (argv : List Arg)
    (h : argc < 1) :
    runMain E cfg argc argv =
      ⟨[Event.err "rq: Really?".toList, Event.err [], Event.err usageText], 1⟩ := by
  have h0 : argc = 0 := by omega
  subst h0
  rfl

/-- Witness for C9 at `argc = 0`. -/
theorem c9_no_arguments_witness :
    0 < 1 ∧
    runMain acceptAll emptyConfig 0 [] =
      ⟨[Event.err "rq: Really?".toList, Event.err [], Event.err usageText], 1⟩ :=
  ⟨Nat.zero_lt_one, c9_no_arguments acceptAll emptyConfig 0 [] Nat.zero_lt_one⟩

/-- Claim C2 (code bug): even on a fully successful run with zero
expressions, `main` writes the progress lines `reading from stdin`,
`running 0 expressions` and `printing item` to standard output in addition
to the serialized document produced by the final evaluator call, so
standard output is neither written exactly once nor limited to the
serialized document. -/
theorem c2_progress_lines_pollute_stdout :
    runMain acceptAll emptyConfig 1 [['r', 'q']] =
      ⟨[Event.out "reading from stdin".toList, Event.eval initStmt,
        Event.out "running 0 expressions".toList,
        Event.out "printing item".toList, Event.eval serializeStmt], 0⟩ ∧
    stdoutLines (runMain acceptAll emptyConfig 1 [['r', 'q']]).events =
      ["reading from stdin".toList, "running 0 expressions".toList,
       "printing item".toList] :=
  ⟨rfl, rfl⟩

/-- Claim C1 counterexample: an empty token is skipped by the option scan
but it is not removed from the argument list, so it does appear in the
resulting expressions sequence. -/
theorem c1_counterexample_empty_token_kept :
    parseArgs [[], ['x']] = .ok ⟨false, false, [[], ['x']]⟩ := rfl

/-- Claim C8: the wrapping transformation is deterministic (two calls on
the same text yield identical output) and total (it yields a result on
every input). -/
theorem c8_wrap_deterministic (e w1 w2 : List Char)
    (h1 : w1 = ExpressionWrapper.wrap e) (h2 : w2 = ExpressionWrapper.wrap e) :
    w1 = w2 ∧ ∃ w, ExpressionWrapper.wrap e = w :=
  ⟨h1.trans h2.symm, ⟨ExpressionWrapper.wrap e, rfl⟩⟩

/-- Witness for C8 at the expression `x`. -/
theorem c8_wrap_deterministic_witness :
    ExpressionWrapper.wrap ['x'] = ExpressionWrapper.wrap ['x'] ∧
    (ExpressionWrapper.wrap ['x'] = ExpressionWrapper.wrap ['x'] ∧
      ∃ w, ExpressionWrapper.wrap ['x'] = w) :=
  ⟨rfl, c8_wrap_deterministic ['x'] (ExpressionWrapper.wrap ['x']) (ExpressionWrapper.wrap ['x'])
    rfl rfl⟩

theorem scanArgs_cons_empty (rest : List Arg) (help version : Bool) :
    scanArgs (([] : Arg) :: rest) help version =
      (scanArgs rest help version).map fun r => (r.1, r.2.1, ([] : Arg) :: r.2.2) := rfl

theorem scanArgs_cons_keep (arg : Arg) (rest : List Arg) (help version : Bool)
    (h0 : ¬arg.length = 0) (hdd : arg ≠ ['-', '-'])
    (hhelp : arg ≠ ['-', '-', 'h', 'e', 'l', 'p'])
    (hver : arg ≠ ['-', '-', 'v', 'e', 'r', 's', 'i', 'o', 'n'])
    (hbun : ¬(1 < arg.length ∧ arg.head? = some '-')) :
    scanArgs (arg :: rest) help version =
      (scanArgs rest help version).map fun r => (r.1, r.2.1, arg :: r.2.2) := by
  simp only [scanArgs]
  rw [if_neg h0, if_neg hdd, if_neg hhelp, if_neg hver, if_neg hbun]

theorem scanArgs_cons_bundle (arg : Arg) (rest : List Arg) (help version : Bool)
    (h0 : ¬arg.length = 0) (hdd : arg ≠ ['-', '-'])
    (hhelp : arg ≠ ['-', '-', 'h', 'e', 'l', 'p'])
    (hver : arg ≠ ['-', '-', 'v', 'e', 'r', 's', 'i', 'o', 'n'])
    (hbun : 1 < arg.length ∧ arg.head? = some '-') :
    scanArgs (arg :: rest) help version =
      match scanShortOptions arg.tail help version with
      | .ok (h, v) => scanArgs rest h v
      | .error c => .error (.invalidOption c) := by
  simp only [scanArgs]
  rw [if_neg h0, if_neg hdd, if_neg hhelp, if_neg hver, if_pos hbun]

theorem consumedTokens_cons_keep (arg : Arg) (rest : List Arg)
    (h0 : ¬arg.length = 0) (hdd : arg ≠ ['-', '-'])
    (hhelp : arg ≠ ['-', '-', 'h', 'e', 'l', 'p'])
    (hver : arg ≠ ['-', '-', 'v', 'e', 'r', 's', 'i', 'o', 'n'])
    (hbun : ¬(1 < arg.length ∧ arg.head? = some '-')) :
    consumedTokens (arg :: rest) = consumedTokens rest := by
  simp only [consumedTokens]
  rw [if_neg h0, if_neg hdd, if_neg hhelp, if_neg hver, if_neg hbun]

theorem consumedTokens_cons_bundle (arg : Arg) (rest : List Arg)
    (h0 : ¬arg.length = 0) (hdd : arg ≠ ['-', '-'])
    (hhelp : arg ≠ ['-', '-', 'h', 'e', 'l', 'p'])
    (hver : arg ≠ ['-', '-', 'v', 'e', 'r', 's', 'i', 'o', 'n'])
    (hbun : 1 < arg.length ∧ arg.head? = some '-') :
    consumedTokens (arg :: rest) = arg :: consumedTokens rest := by
  simp only [consumedTokens]
  rw [if_neg h0, if_neg hdd, if_neg hhelp, if_neg hver, if_pos hbun]

theorem helpSetters_cons_keep (arg : Arg) (rest : List Arg)
    (h0 : ¬arg.length = 0) (hdd : arg ≠ ['-', '-'])
    (hhelp : arg ≠ ['-', '-', 'h', 'e', 'l', 'p'])
    (hver : arg ≠ ['-', '-', 'v', 'e', 'r', 's', 'i', 'o', 'n'])
    (hbun : ¬(1 < arg.length ∧ arg.head? = some '-')) :
    helpSetters (arg :: rest) = helpSetters rest := by
  simp only [helpSetters]
  rw [if_neg h0, if_neg hdd, if_neg hhelp, if_neg hver, if_neg hbun]

theorem helpSetters_cons_bundle (arg : Arg) (rest : List Arg)
    (h0 : ¬arg.length = 0) (hdd : arg ≠ ['-', '-'])
    (hhelp : arg ≠ ['-', '-', 'h', 'e', 'l', 'p'])
    (hver : arg ≠ ['-', '-', 'v', 'e', 'r', 's', 'i', 'o', 'n'])
    (hbun : 1 < arg.length ∧ arg.head? = some '-') :
    helpSetters (arg :: rest) =
      if arg.tail.contains 'h' then arg :: helpSetters rest else helpSetters rest := by
  simp only [helpSetters]
  rw [if_neg h0, if_neg hdd, if_neg hhelp, if_neg hver, if_pos hbun]

theorem versionSetters_cons_keep (arg : Arg) (rest : List Arg)
    (h0 : ¬arg.length = 0) (hdd : arg ≠ ['-', '-'])
    (hhelp : arg ≠ ['-', '-', 'h', 'e', 'l', 'p'])
    (hver : arg ≠ ['-', '-', 'v', 'e', 'r', 's', 'i', 'o', 'n'])
    (hbun : ¬(1 < arg.length ∧ arg.head? = some '-')) :
    versionSetters (arg :: rest) = versionSetters rest := by
  simp only [versionSetters]
  rw [if_neg h0, if_neg hdd, if_neg hhelp, if_neg hver, if_neg hbun]

theorem versionSetters_cons_bundle (arg : Arg) (rest : List Arg)
    (h0 : ¬arg.length = 0) (hdd : arg ≠ ['-', '-'])
    (hhelp : arg ≠ ['-', '-', 'h', 'e', 'l', 'p'])
    (hver : arg ≠ ['-', '-', 'v', 'e', 'r', 's', 'i', 'o', 'n'])
    (hbun : 1 < arg.length ∧ arg.head? = some '-') :
    versionSetters (arg :: rest) =
      if arg.tail.contains 'v' then arg :: versionSetters rest else versionSetters rest := by
  simp only [versionSetters]
  rw [if_neg h0, if_neg hdd, if_neg hhelp, if_neg hver, if_pos hbun]

/-- Master characterization of a successful scan: the resulting flags are
the incoming flags or-ed with the presence of a setter token, the
expressions are a sublist of the input (order-preserving), and together
with the consumed option tokens they account for every input token with
its exact multiplicity. -/
theorem scanArgs_ok_spec (args : List Arg) : ∀ (help version h v : Bool) (es : List Arg),
    scanArgs args help version = .ok (h, v, es) →
      h = (help || !(helpSetters args).isEmpty) ∧
      v = (version || !(versionSetters args).isEmpty) ∧
      es.Sublist args ∧
      ∀ a : Arg, args.count a = (consumedTokens args).count a + es.count a := by
  induction args with
  | nil =>
    intro help version h v es heq
    simp only [scanArgs, Except.ok.injEq, Prod.mk.injEq] at heq
    obtain ⟨e1, e2, e3⟩ := heq
    subst e1; subst e2; subst e3
    refine ⟨by simp [helpSetters], by simp [versionSetters], List.Sublist.refl _, fun a => ?_⟩
    simp [consumedTokens]
  | cons arg rest ih =>
    intro help version h v es heq
    by_cases h0 : arg = []
    · subst h0
      rw [scanArgs_cons_empty] at heq
      cases hx : scanArgs rest help version with
      | error e => rw [hx] at heq; simp only [Except.map] at heq; exact Except.noConfusion heq
      | ok r =>
        obtain ⟨rh, rv, res⟩ := r
        rw [hx] at heq
        simp only [Except.map, Except.ok.injEq, Prod.mk.injEq] at heq
        obtain ⟨e1, e2, e3⟩ := heq
        subst e1; subst e2; subst e3
        obtain ⟨ih1, ih2, ih3, ih4⟩ := ih help version rh rv res hx
        refine ⟨ih1, ih2, ih3.cons₂ _, fun a => ?_⟩
        rw [show consumedTokens (([] : Arg) :: rest) = consumedTokens rest from rfl,
            List.count_cons, List.count_cons]
        have := ih4 a
        omega
    · have h0l : ¬arg.length = 0 := by simpa [List.length_eq_zero] using h0
      by_cases hdd : arg = ['-', '-']
      · subst hdd
        rw [show scanArgs (['-', '-'] :: rest) help version = .ok (help, version, rest) from rfl]
          at heq
        simp only [Except.ok.injEq, Prod.mk.injEq] at heq
        obtain ⟨e1, e2, e3⟩ := heq
        subst e1; subst e2; subst e3
        refine ⟨?_, ?_, (List.Sublist.refl rest).cons _, fun a => ?_⟩
        · rw [show helpSetters (['-', '-'] :: rest) = [] from rfl]; simp
        · rw [show versionSetters (['-', '-'] :: rest) = [] from rfl]; simp
        · rw [show consumedTokens (['-', '-'] :: rest) = [['-', '-']] from rfl,
              List.count_cons, List.count_cons, List.count_nil]
          omega
      · by_cases hhelp : arg = ['-', '-', 'h', 'e', 'l', 'p']
        · subst hhelp
          rw [show scanArgs (['-', '-', 'h', 'e', 'l', 'p'] :: rest) help version =
              scanArgs rest true version from rfl] at heq
          obtain ⟨ih1, ih2, ih3, ih4⟩ := ih true version h v es heq
          refine ⟨?_, ?_, ih3.cons _, fun a => ?_⟩
          · rw [show helpSetters (['-', '-', 'h', 'e', 'l', 'p'] :: rest) =
                ['-', '-', 'h', 'e', 'l', 'p'] :: helpSetters rest from rfl]
            rw [ih1]; simp
          · rw [show versionSetters (['-', '-', 'h', 'e', 'l', 'p'] :: rest) =
                versionSetters rest from rfl]
            exact ih2
          · rw [show consumedTokens (['-', '-', 'h', 'e', 'l', 'p'] :: rest) =
                ['-', '-', 'h', 'e', 'l', 'p'] :: consumedTokens rest from rfl,
                List.count_cons, List.count_cons]
            have := ih4 a
            omega
        · by_cases hver : arg = ['-', '-', 'v', 'e', 'r', 's', 'i', 'o', 'n']
          · subst hver
            rw [show scanArgs (['-', '-', 'v', 'e', 'r', 's', 'i', 'o', 'n'] :: rest)
                help version = scanArgs rest help true from rfl] at heq
            obtain ⟨ih1, ih2, ih3, ih4⟩ := ih help true h v es heq
            refine ⟨?_, ?_, ih3.cons _, fun a => ?_⟩
            · rw [show helpSetters (['-', '-', 'v', 'e', 'r', 's', 'i', 'o', 'n'] :: rest) =
                  helpSetters rest from rfl]
              exact ih1
            · rw [show versionSetters (['-', '-', 'v', 'e', 'r', 's', 'i', 'o', 'n'] :: rest) =
                  ['-', '-', 'v', 'e', 'r', 's', 'i', 'o', 'n'] :: versionSetters rest from rfl]
              rw [ih2]; simp
            · rw [show consumedTokens (['-', '-', 'v', 'e', 'r', 's', 'i', 'o', 'n'] :: rest) =
                  ['-', '-', 'v', 'e', 'r', 's', 'i', 'o', 'n'] :: consumedTokens rest from rfl,
                  List.count_cons, List.count_cons]
              have := ih4 a
              omega
          · by_cases hbun : 1 < arg.length ∧ arg.head? = some '-'
            · rw [scanArgs_cons_bundle arg rest help version h0l hdd hhelp hver hbun] at heq
              cases hsso : scanShortOptions arg.tail help version with
              | error c => rw [hsso] at heq; exact Except.noConfusion heq
              | ok r2 =>
                obtain ⟨h2, v2⟩ := r2
                rw [hsso] at heq
                have hfind : arg.tail.find? (fun c => !(c == 'h' || c == 'v')) = none := by
                  cases hf : arg.tail.find? (fun c => !(c == 'h' || c == 'v')) with
                  | none => rfl
                  | some c =>
                    have hspec := (scanShortOptions_spec arg.tail help version).1 c hf
                    rw [hsso] at hspec
                    exact Except.noConfusion hspec
                have hok2 := (scanShortOptions_spec arg.tail help version).2 hfind
                rw [hsso] at hok2
                simp only [Except.ok.injEq, Prod.mk.injEq] at hok2
                obtain ⟨hh2, hv2⟩ := hok2
                obtain ⟨ih1, ih2, ih3, ih4⟩ := ih h2 v2 h v es heq
                refine ⟨?_, ?_, ih3.cons _, fun a => ?_⟩
                · rw [helpSetters_cons_bundle arg rest h0l hdd hhelp hver hbun]
                  by_cases hc : arg.tail.contains 'h'
                  · rw [if_pos hc, ih1, hh2, hc]; simp
                  · rw [if_neg hc, Bool.not_eq_true] at *
                    rw [ih1, hh2, hc]; simp
                · rw [versionSetters_cons_bundle arg rest h0l hdd hhelp hver hbun]
                  by_cases hc : arg.tail.contains 'v'
                  · rw [if_pos hc, ih2, hv2, hc]; simp
                  · rw [if_neg hc, Bool.not_eq_true] at *
                    rw [ih2, hv2, hc]; simp
                · rw [consumedTokens_cons_bundle arg rest h0l hdd hhelp hver hbun,
                      List.count_cons, List.count_cons]
                  have := ih4 a
                  omega
            · rw [scanArgs_cons_keep arg rest help version h0l hdd hhelp hver hbun] at heq
              cases hx : scanArgs rest help version with
              | error e =>
                rw [hx] at heq; simp only [Except.map] at heq; exact Except.noConfusion heq
              | ok r =>
                obtain ⟨rh, rv, res⟩ := r
                rw [hx] at heq
                simp only [Except.map, Except.ok.injEq, Prod.mk.injEq] at heq
                obtain ⟨e1, e2, e3⟩ := heq
                subst e1; subst e2; subst e3
                obtain ⟨ih1, ih2, ih3, ih4⟩ := ih help version rh rv res hx
                refine ⟨?_, ?_, ih3.cons₂ _, fun a => ?_⟩
                · rw [helpSetters_cons_keep arg rest h0l hdd hhelp hver hbun]; exact ih1
                · rw [versionSetters_cons_keep arg rest h0l hdd hhelp hver hbun]; exact ih2
                · rw [consumedTokens_cons_keep arg rest h0l hdd hhelp hver hbun,
                      List.count_cons, List.count_cons]
                  have := ih4 a
                  omega

/-- The scan only ever erases non-empty tokens. -/
theorem count_nil_consumedTokens (args : List Arg) :
    (consumedTokens args).count ([] : Arg) = 0 := by
  induction args with
  | nil => rfl
  | cons arg rest ih =>
    by_cases h0 : arg = []
    · subst h0
      rw [show consumedTokens (([] : Arg) :: rest) = consumedTokens rest from rfl]
      exact ih
    · have h0l : ¬arg.length = 0 := by simpa [List.length_eq_zero] using h0
      have hbeq : (arg == ([] : Arg)) = false := by
        cases arg with
        | nil => exact absurd rfl h0
        | cons c cs => rfl
      by_cases hdd : arg = ['-', '-']
      · subst hdd
        rw [show consumedTokens (['-', '-'] :: rest) = [['-', '-']] from rfl]
        rfl
      · by_cases hhelp : arg = ['-', '-', 'h', 'e', 'l', 'p']
        · subst hhelp
          rw [show consumedTokens (['-', '-', 'h', 'e', 'l', 'p'] :: rest) =
              ['-', '-', 'h', 'e', 'l', 'p'] :: consumedTokens rest from rfl,
              List.count_cons, ih]
          simp
        · by_cases hver : arg = ['-', '-', 'v', 'e', 'r', 's', 'i', 'o', 'n']
          · subst hver
            rw [show consumedTokens (['-', '-', 'v', 'e', 'r', 's', 'i', 'o', 'n'] :: rest) =
                ['-', '-', 'v', 'e', 'r', 's', 'i', 'o', 'n'] :: consumedTokens rest from rfl,
                List.count_cons, ih]
            simp
          · by_cases hbun : 1 < arg.length ∧ arg.head? = some '-'
            · rw [consumedTokens_cons_bundle arg rest h0l hdd hhelp hver hbun,
                  List.count_cons, ih, hbeq]
              simp
            · rw [consumedTokens_cons_keep arg rest h0l hdd hhelp hver hbun]
              exact ih

/-- Removing the empty tokens from the argument list changes neither the
flags nor the error outcome of the scan, and changes the expressions only
by removing those same empty tokens. -/
theorem scanArgs_filter_empty (args : List Arg) : ∀ (help version : Bool),
    scanArgs (args.filter fun a => !a.isEmpty) help version =
      (scanArgs args help version).map
        fun r => (r.1, r.2.1, r.2.2.filter fun a => !a.isEmpty) := by
  induction args with
  | nil => intro help version; rfl
  | cons arg rest ih =>
    intro help version
    by_cases h0 : arg = []
    · subst h0
      rw [show ((([] : Arg) :: rest).filter fun a => !a.isEmpty) =
          rest.filter fun a => !a.isEmpty from by simp]
      rw [scanArgs_cons_empty, ih]
      cases hx : scanArgs rest help version with
      | error e => simp [Except.map]
      | ok r => simp [Except.map]
    · have h0l : ¬arg.length = 0 := by simpa [List.length_eq_zero] using h0
      have hp : (!arg.isEmpty) = true := by
        cases arg with
        | nil => exact absurd rfl h0
        | cons c cs => rfl
      rw [show ((arg :: rest).filter fun a => !a.isEmpty) =
          arg :: rest.filter fun a => !a.isEmpty from by simp [List.filter_cons, hp]]
      by_cases hdd : arg = ['-', '-']
      · subst hdd
        rw [show scanArgs (['-', '-'] :: rest.filter fun a => !a.isEmpty) help version =
            .ok (help, version, rest.filter fun a => !a.isEmpty) from rfl]
        rw [show scanArgs (['-', '-'] :: rest) help version =
            .ok (help, version, rest) from rfl]
        rfl
      · by_cases hhelp : arg = ['-', '-', 'h', 'e', 'l', 'p']
        · subst hhelp
          rw [show scanArgs (['-', '-', 'h', 'e', 'l', 'p'] ::
                rest.filter fun a => !a.isEmpty) help version =
              scanArgs (rest.filter fun a => !a.isEmpty) true version from rfl]
          rw [show scanArgs (['-', '-', 'h', 'e', 'l', 'p'] :: rest) help version =
              scanArgs rest true version from rfl]
          exact ih true version
        · by_cases hver : arg = ['-', '-', 'v', 'e', 'r', 's', 'i', 'o', 'n']
          · subst hver
            rw [show scanArgs (['-', '-', 'v', 'e', 'r', 's', 'i', 'o', 'n'] ::
                  rest.filter fun a => !a.isEmpty) help version =
                scanArgs (rest.filter fun a => !a.isEmpty) help true from rfl]
            rw [show scanArgs (['-', '-', 'v', 'e', 'r', 's', 'i', 'o', 'n'] :: rest)
                  help version = scanArgs rest help true from rfl]
            exact ih help true
          · by_cases hbun : 1 < arg.length ∧ arg.head? = some '-'
            · rw [scanArgs_cons_bundle arg _ help version h0l hdd hhelp hver hbun,
                  scanArgs_cons_bundle arg _ help version h0l hdd hhelp hver hbun]
              cases hsso : scanShortOptions arg.tail help version with
              | error c => simp [Except.map]
              | ok r2 =>
                obtain ⟨h2, v2⟩ := r2
                simp only
                exact ih h2 v2
            · rw [scanArgs_cons_keep arg _ help version h0l hdd hhelp hver hbun,
                  scanArgs_cons_keep arg _ help version h0l hdd hhelp hver hbun, ih]
              cases hx : scanArgs rest help version with
              | error e => simp [Except.map]
              | ok r => simp [Except.map, List.filter_cons, hp]

/-- Claim C1 (amended): an empty token is skipped by the option scan as
noise — it sets no flag and causes no error, so the scan behaves exactly
as if the empty tokens were absent as far as flags and errors are
concerned — but the token is not removed: every empty token reappears
verbatim in the resulting expressions sequence (their count is
preserved). -/
theorem c1_empty_tokens_skipped_not_dropped :
    (∀ (args : List Arg) (help version : Bool),
        scanArgs (args.filter fun a => !a.isEmpty) help version =
          (scanArgs args help version).map
            fun r => (r.1, r.2.1, r.2.2.filter fun a => !a.isEmpty)) ∧
    (∀ (args : List Arg) (help version h v : Bool) (es : List Arg),
        scanArgs args help version = .ok (h, v, es) →
          es.count ([] : Arg) = args.count ([] : Arg)) := by
  refine ⟨scanArgs_filter_empty, fun args help version h v es heq => ?_⟩
  have hm := (scanArgs_ok_spec args help version h v es heq).2.2.2 ([] : Arg)
  have h0 := count_nil_consumedTokens args
  omega

/-- Witness for C1 (amended) at the argument list `["", "x"]`. -/
theorem c1_empty_tokens_skipped_not_dropped_witness :
    scanArgs [([] : Arg), ['x']] false false = .ok (false, false, [[], ['x']]) ∧
    ([[], ['x']] : List Arg).count ([] : Arg) = ([[], ['x']] : List Arg).count ([] : Arg) :=
  ⟨rfl, c1_empty_tokens_skipped_not_dropped.2 [[], ['x']] false false false false
    [[], ['x']] rfl⟩

/-- Claim C7: for every argument sequence that scans successfully, the
expressions are a sublist of the input (each surviving token is an input
token, in the original relative order), and together with the consumed
option tokens they account for every input token with its exact
multiplicity — no token is lost or duplicated. -/
theorem c7_tokens_partition (args : List Arg) (help version h v : Bool) (es : List Arg)
    (heq : scanArgs args help version = .ok (h, v, es)) :
    es.Sublist args ∧
    ∀ a : Arg, args.count a = (consumedTokens args).count a + es.count a :=
  ⟨(scanArgs_ok_spec args help version h v es heq).2.2.1,
   (scanArgs_ok_spec args help version h v es heq).2.2.2⟩

/-- Witness for C7 at the argument list `["-h", "f", "--", "-x"]`. -/
theorem c7_tokens_partition_witness :
    scanArgs [['-', 'h'], ['f'], ['-', '-'], ['-', 'x']] false false =
      .ok (true, false, [['f'], ['-', 'x']]) ∧
    (([['f'], ['-', 'x']] : List Arg).Sublist [['-', 'h'], ['f'], ['-', '-'], ['-', 'x']] ∧
      ∀ a : Arg, ([['-', 'h'], ['f'], ['-', '-'], ['-', 'x']] : List Arg).count a =
        (consumedTokens [['-', 'h'], ['f'], ['-', '-'], ['-', 'x']]).count a +
          ([['f'], ['-', 'x']] : List Arg).count a) :=
  ⟨rfl, c7_tokens_partition [['-', 'h'], ['f'], ['-', '-'], ['-', 'x']] false false
    true false [['f'], ['-', 'x']] rfl⟩

/-- Claim C10: the help and version flags are monotone across the scan — a
flag set on entry is still set on exit — and a successful scan yields
`help` (resp. `version`) true exactly when it was already set or at least
one token of the scanned region sets it. -/
theorem c10_flags_monotone (args : List Arg) (help version h v : Bool) (es : List Arg)
    (heq : scanArgs args help version = .ok (h, v, es)) :
    (help = true → h = true) ∧ (version = true → v = true) ∧
    h = (help || !(helpSetters args).isEmpty) ∧
    v = (version || !(versionSetters args).isEmpty) := by
  obtain ⟨h1, h2, -, -⟩ := scanArgs_ok_spec args help version h v es heq
  refine ⟨fun hh => ?_, fun hv2 => ?_, h1, h2⟩
  · subst hh; rw [h1]; simp
  · subst hv2; rw [h2]; simp

/-- Witness for C10 at the argument list `["-v", "e"]`. -/
theorem c10_flags_monotone_witness :
    scanArgs [['-', 'v'], ['e']] false false = .ok (false, true, [['e']]) ∧
    ((false = true → false = true) ∧ (false = true → true = true) ∧
      false = (false || !(helpSetters [['-', 'v'], ['e']]).isEmpty) ∧
      true = (false || !(versionSetters [['-', 'v'], ['e']]).isEmpty)) :=
  ⟨rfl, c10_flags_monotone [['-', 'v'], ['e']] false false false true [['e']] rfl⟩

/-- A wrapped expression always begins with `item`, so it is never the
serialize statement (which begins with `puts`). -/
theorem wrap_ne_serializeStmt (e : List Char) : ExpressionWrapper.wrap e ≠ serializeStmt := by
  intro h
  have h1 : (ExpressionWrapper.wrap e).head? = some 'i' := rfl
  rw [h] at h1
  exact absurd h1 (by decide)

theorem initStmt_ne_serializeStmt : initStmt ≠ serializeStmt := by decide

/-- Failure characterization of the expression loop: when the loop fails,
there is a failing index k — the evaluator rejected the wrapped form of
expression k after successfully running expressions 0..k-1 — exactly the
wrapped expressions 0..k are submitted to the evaluator, and the loop's
trace ends with the stderr line naming the failing expression's source
text followed by the evaluator diagnostic. -/
theorem runExprLoop_fail (E : Evaluator) :
    ∀ (exprs : List Arg) (hist : List (List Char)),
      (runExprLoop E hist exprs).2 = none →
      ∃ k e pre,
        exprs.get? k = some e ∧
        E (hist ++ (exprs.take k).map ExpressionWrapper.wrap) (ExpressionWrapper.wrap e)
          = false ∧
        evalStmts (runExprLoop E hist exprs).1 =
          (exprs.take (k + 1)).map ExpressionWrapper.wrap ∧
        (runExprLoop E hist exprs).1 =
          pre ++ [Event.err ("rq: expression ".toList ++ e ++ " failed to run:".toList),
                  Event.printError] := by
  intro exprs
  induction exprs with
  | nil => intro hist h; simp [runExprLoop] at h
  | cons e rest ih =>
    intro hist h
    by_cases hE : E hist (ExpressionWrapper.wrap e)
    · have hunf : runExprLoop E hist (e :: rest) =
          (Event.out ("----> ".toList ++ ExpressionWrapper.wrap e) ::
             Event.eval (ExpressionWrapper.wrap e) ::
             (runExprLoop E (hist ++ [ExpressionWrapper.wrap e]) rest).1,
           (runExprLoop E (hist ++ [ExpressionWrapper.wrap e]) rest).2) := by
        simp [runExprLoop, hE]
      rw [hunf] at h
      obtain ⟨k, e2, pre, hget, hEf, hstmts, hpre⟩ :=
        ih (hist ++ [ExpressionWrapper.wrap e]) h
      refine ⟨k + 1, e2,
        Event.out ("----> ".toList ++ ExpressionWrapper.wrap e) ::
          Event.eval (ExpressionWrapper.wrap e) :: pre, ?_, ?_, ?_, ?_⟩
      · simpa using hget
      · simpa [List.take_succ_cons, List.append_assoc] using hEf
      · rw [hunf]
        simp only [evalStmts, List.filterMap_cons] at hstmts ⊢
        rw [hstmts]
        simp [List.take_succ_cons]
      · rw [hunf]
        rw [hpre]
        simp
    · have hunf : runExprLoop E hist (e :: rest) =
          ([Event.out ("----> ".toList ++ ExpressionWrapper.wrap e),
            Event.eval (ExpressionWrapper.wrap e),
            Event.err ("rq: expression ".toList ++ e ++ " failed to run:".toList),
            Event.printError], none) := by
        simp [runExprLoop, hE]
      refine ⟨0, e,
        [Event.out ("----> ".toList ++ ExpressionWrapper.wrap e),
         Event.eval (ExpressionWrapper.wrap e)], rfl, ?_, ?_, ?_⟩
      · simpa using hE
      · rw [hunf]; simp [evalStmts]
      · rw [hunf]; rfl

/-- Claim C3 counterexample: the same expression text failing at index 0
(run with arguments `["b"]`) and at index 1 (run with arguments
`["a", "b"]`) produces byte-for-byte identical stderr output, so the
reported error does not carry the index of the failing expression. -/
theorem c3_counterexample_index_not_reported :
    stderrEvents (runMain failOnB emptyConfig 2 [['r', 'q'], ['b']]).events =
      stderrEvents (runMain failOnB emptyConfig 3 [['r', 'q'], ['a'], ['b']]).events ∧
    stderrEvents (runMain failOnB emptyConfig 2 [['r', 'q'], ['b']]).events =
      [Event.err ("rq: expression ".toList ++ ['b'] ++ " failed to run:".toList),
       Event.printError] ∧
    (runMain failOnB emptyConfig 2 [['r', 'q'], ['b']]).exitCode = 1 ∧
    (runMain failOnB emptyConfig 3 [['r', 'q'], ['a'], ['b']]).exitCode = 1 :=
  ⟨rfl, rfl, rfl, rfl⟩

/-- Claim C3 (amended): when the expression at position k fails, the
reported diagnostic is the stderr line naming the failing expression's
source text, followed by the evaluator's error output; the index is not
part of the diagnostic (see the counterexample). -/
theorem c3_failure_diagnostic_names_text (E : Evaluator) (exprs : List Arg)
    (hist : List (List Char)) (hfail : (runExprLoop E hist exprs).2 = none) :
    ∃ k e pre, exprs.get? k = some e ∧
      E (hist ++ (exprs.take k).map ExpressionWrapper.wrap) (ExpressionWrapper.wrap e)
        = false ∧
      (runExprLoop E hist exprs).1 =
        pre ++ [Event.err ("rq: expression ".toList ++ e ++ " failed to run:".toList),
                Event.printError] := by
  obtain ⟨k, e, pre, h1, h2, h3, h4⟩ := runExprLoop_fail E exprs hist hfail
  exact ⟨k, e, pre, h1, h2, h4⟩

/-- Witness for C3 (amended): the expression `b` rejected by the evaluator. -/
theorem c3_failure_diagnostic_names_text_witness :
    (runExprLoop failOnB [initStmt] [['b']]).2 = none ∧
    (∃ k e pre, ([['b']] : List Arg).get? k = some e ∧
      failOnB ([initStmt] ++ (([['b']] : List Arg).take k).map ExpressionWrapper.wrap)
        (ExpressionWrapper.wrap e) = false ∧
      (runExprLoop failOnB [initStmt] [['b']]).1 =
        pre ++ [Event.err ("rq: expression ".toList ++ e ++ " failed to run:".toList),
                Event.printError]) :=
  ⟨rfl, c3_failure_diagnostic_names_text failOnB [['b']] [initStmt] rfl⟩

/-- Claim C5: if document initialization from stdin fails, the run aborts
with a non-zero exit and the init statement is the only statement ever
submitted (no expression is evaluated); and if the expression at position
k fails, the run exits non-zero, the serialize statement is never
submitted (so no JSON is written to standard output), and only the wrapped
expressions 0..k are submitted — nothing after the failing one. -/
theorem c5_failures_abort (E : Evaluator) (cfg : Config) (argc : Nat) (argv : List Arg)
    (opts : ProgramOptions) (hok : ProgramOptions.ofArgv argc argv = .ok opts)
    (hh : opts.help = false) (hv : opts.version = false) :
    (E [] initStmt = false →
        evalStmts (runMain E cfg argc argv).events = [initStmt] ∧
        (runMain E cfg argc argv).exitCode = 1) ∧
    (E [] initStmt = true →
        (runExprLoop E [initStmt] opts.expressions).2 = none →
        (runMain E cfg argc argv).exitCode = 1 ∧
        serializeStmt ∉ evalStmts (runMain E cfg argc argv).events ∧
        ∃ k e, opts.expressions.get? k = some e ∧
          E ([initStmt] ++ (opts.expressions.take k).map ExpressionWrapper.wrap)
            (ExpressionWrapper.wrap e) = false ∧
          evalStmts (runMain E cfg argc argv).events =
            initStmt :: (opts.expressions.take (k + 1)).map ExpressionWrapper.wrap) := by
  constructor
  · intro hEf
    have hrun : runMain E cfg argc argv =
        ⟨[Event.out "reading from stdin".toList, Event.eval initStmt,
          Event.err "rq: read from stdin failed:".toList, Event.printError], 1⟩ := by
      simp [runMain, hok, hh, hv, hEf]
    rw [hrun]
    exact ⟨rfl, rfl⟩
  · intro hEt hfail
    have hrun : runMain E cfg argc argv =
        ⟨[Event.out "reading from stdin".toList, Event.eval initStmt,
          Event.out (runningLine opts.expressions.length)] ++
          (runExprLoop E [initStmt] opts.expressions).1, 1⟩ := by
      simp [runMain, hok, hh, hv, hEt, hfail]
    obtain ⟨k, e, pre, hget, hEf2, hstmts, hpre⟩ :=
      runExprLoop_fail E opts.expressions [initStmt] hfail
    have hev : evalStmts ([Event.out "reading from stdin".toList, Event.eval initStmt,
        Event.out (runningLine opts.expressions.length)] ++
        (runExprLoop E [initStmt] opts.expressions).1) =
        initStmt :: evalStmts (runExprLoop E [initStmt] opts.expressions).1 := by
      simp [evalStmts, List.filterMap_append]
    rw [hrun]
    refine ⟨rfl, ?_, k, e, hget, hEf2, ?_⟩
    · rw [show (⟨[Event.out "reading from stdin".toList, Event.eval initStmt,
          Event.out (runningLine opts.expressions.length)] ++
          (runExprLoop E [initStmt] opts.expressions).1, 1⟩ : MainResult).events =
          [Event.out "reading from stdin".toList, Event.eval initStmt,
            Event.out (runningLine opts.expressions.length)] ++
            (runExprLoop E [initStmt] opts.expressions).1 from rfl, hev, hstmts]
      intro hmem
      rcases List.mem_cons.mp hmem with h1 | h2
      · exact initStmt_ne_serializeStmt h1.symm
      · obtain ⟨x, hx, hwx⟩ := List.mem_map.mp h2
        exact wrap_ne_serializeStmt x hwx
    · rw [show (⟨[Event.out "reading from stdin".toList, Event.eval initStmt,
          Event.out (runningLine opts.expressions.length)] ++
          (runExprLoop E [initStmt] opts.expressions).1, 1⟩ : MainResult).events =
          [Event.out "reading from stdin".toList, Event.eval initStmt,
            Event.out (runningLine opts.expressions.length)] ++
            (runExprLoop E [initStmt] opts.expressions).1 from rfl, hev, hstmts]

/-- Witness for C5: the evaluator rejects the wrapped expression `b`; the
run `rq b` aborts without submitting the serialize statement. -/
theorem c5_failures_abort_witness :
    ProgramOptions.ofArgv 2 [['r', 'q'], ['b']] = .ok ⟨false, false, [['b']]⟩ ∧
    ((failOnB [] initStmt = false →
        evalStmts (runMain failOnB emptyConfig 2 [['r', 'q'], ['b']]).events = [initStmt] ∧
        (runMain failOnB emptyConfig 2 [['r', 'q'], ['b']]).exitCode = 1) ∧
     (failOnB [] initStmt = true →
        (runExprLoop failOnB [initStmt] [['b']]).2 = none →
        (runMain failOnB emptyConfig 2 [['r', 'q'], ['b']]).exitCode = 1 ∧
        serializeStmt ∉ evalStmts (runMain failOnB emptyConfig 2 [['r', 'q'], ['b']]).events ∧
        ∃ k e, ([['b']] : List Arg).get? k = some e ∧
          failOnB ([initStmt] ++ (([['b']] : List Arg).take k).map ExpressionWrapper.wrap)
            (ExpressionWrapper.wrap e) = false ∧
          evalStmts (runMain failOnB emptyConfig 2 [['r', 'q'], ['b']]).events =
            initStmt :: (([['b']] : List Arg).take (k + 1)).map ExpressionWrapper.wrap)) :=
  ⟨rfl, c5_failures_abort failOnB emptyConfig 2 [['r', 'q'], ['b']]
    ⟨false, false, [['b']]⟩ rfl rfl rfl⟩
